import Mathlib

/-!
Shallow embedding of the simulation / alerting core of `src/src/App.tsx`
(m2m-dashboard): the bounded random-walk reading generator, the per-site
series buffer, the threshold alert classifier, and the CSV serializer.
JavaScript numbers are modelled as rationals; `Math.random()` draws are
passed in explicitly as values assumed to lie in `[0, 1)`; timestamps
(milliseconds since epoch, from `Date.now()`) are integers.
-/

namespace Dashboard

/-- The ten simulated parameters (`type ParamKey`, App.tsx line 12).
The JS key `do` is rendered `do_` because `do` is a Lean keyword. -/
inductive ParamKey
  | temp | sal | ph | do_ | turb | chl | gene_expr | methyl | metabo | lipid_ox
deriving DecidableEq, Repr

/-- One timestamped sample (`type Reading`, App.tsx lines 14-26). -/
structure Reading where
  ts : Int
  temp : ℚ
  sal : ℚ
  ph : ℚ
  do_ : ℚ
  turb : ℚ
  chl : ℚ
  gene_expr : ℚ
  methyl : ℚ
  metabo : ℚ
  lipid_ox : ℚ
deriving DecidableEq, Repr

/-- A monitoring location (`type Site`, App.tsx lines 28-34). -/
structure Site where
  id : String
  name : String
  lat : ℚ
  lon : ℚ
  depth_m : ℚ
deriving DecidableEq, Repr

/-- The static site list (`SITES`, App.tsx lines 36-41). -/
def SITES : List Site :=
  [ ⟨"PS-EDMONDS", "Edmonds Nearshore", mkRat 47812 1000, mkRat (-122377) 1000, 4⟩,
    ⟨"PS-ALKI", "Alki Cove", mkRat 47576 1000, mkRat (-122413) 1000, 5⟩,
    ⟨"PS-DOCKTON", "Dockton Cove", mkRat 47373 1000, mkRat (-122463) 1000, 3⟩,
    ⟨"PS-SKAGIT", "Skagit Bay Farm", mkRat 48327 1000, mkRat (-122482) 1000, 2⟩ ]

/-- Threshold direction: `"over" | "under"` (App.tsx line 43). -/
inductive Dir
  | over | under
deriving DecidableEq, Repr

/-- One threshold entry `{ warn, crit, dir }` (App.tsx line 43). -/
structure Threshold where
  warn : ℚ
  crit : ℚ
  dir : Dir
deriving DecidableEq, Repr

/-- The default threshold table (`THRESHOLDS`, App.tsx lines 43-55).
The table is mutable in the source, so operations below take the table
as an argument; this is its initial value. -/
def THRESHOLDS : ParamKey → Threshold
  | .temp => ⟨20, 24, .over⟩
  | .sal => ⟨20, 15, .under⟩
  | .ph => ⟨mkRat 77 10, mkRat 76 10, .under⟩
  | .do_ => ⟨6, 4, .under⟩
  | .turb => ⟨50, 150, .over⟩
  | .chl => ⟨15, 40, .over⟩
  | .gene_expr => ⟨40, 70, .over⟩
  | .methyl => ⟨mkRat 55 100, mkRat 7 10, .over⟩
  | .metabo => ⟨50, 75, .over⟩
  | .lipid_ox => ⟨mkRat 35 100, mkRat 55 100, .over⟩

/-- Severity of a classification (`"ok" | "warn" | "crit"`, App.tsx line 59). -/
inductive Severity
  | ok | warn | crit
deriving DecidableEq, Repr

/-- `classifyAlert` (App.tsx lines 59-70), with the threshold entry passed
explicitly (the source reads the current, mutable `THRESHOLDS[key]`). -/
def classifyAlert (th : Threshold) (value : ℚ) : Severity :=
  match th.dir with
  | .over =>
      if th.crit ≤ value then .crit
      else if th.warn ≤ value then .warn
      else .ok
  | .under =>
      if value ≤ th.crit then .crit
      else if value ≤ th.warn then .warn
      else .ok

/-- `randomWalk` (App.tsx lines 72-75): `prev + (Math.random() - 0.5) * step`
clamped into `[lo, hi]` via `Math.max(lo, Math.min(hi, next))`. The draw
`u` stands for the `Math.random()` call. -/
def randomWalk (prev step lo hi u : ℚ) : ℚ :=
  max lo (min hi (prev + (u - mkRat 1 2) * step))

/-- `generateSeeded` (App.tsx lines 77-91); `u i` is the i-th `Math.random()`
call of the function body, in source order. This is the exact-rational
reading of the source expressions; `generateSeededFP` further below models
the same expressions under the source's IEEE-754 binary64 evaluation,
which differs from this idealization exactly at the alert-threshold
boundaries (see the C8 counterexample). -/
def generateSeeded (start : Int) (u : Fin 10 → ℚ) : Reading :=
  { ts := start
    temp := 16 + u 0 * 4
    sal := 28 + u 1 * 3
    ph := mkRat 78 10 + u 2 * mkRat 2 10
    do_ := 7 + u 3 * 2
    turb := 10 + u 4 * 25
    chl := 3 + u 5 * 10
    gene_expr := 20 + u 6 * 20
    methyl := mkRat 4 10 + u 7 * mkRat 1 10
    metabo := 20 + u 8 * 20
    lipid_ox := mkRat 25 100 + u 9 * mkRat 1 10 }

/-- `tick` (App.tsx lines 93-107): one bounded random-walk step for every
parameter; `u i` is the i-th `Math.random()` call, in source order. -/
def tick (prev : Reading) (t : Int) (u : Fin 10 → ℚ) : Reading :=
  { ts := t
    temp := randomWalk prev.temp (mkRat 3 10) 8 26 (u 0)
    sal := randomWalk prev.sal (mkRat 3 10) 10 33 (u 1)
    ph := randomWalk prev.ph (mkRat 5 100) (mkRat 73 10) (mkRat 83 10) (u 2)
    do_ := randomWalk prev.do_ (mkRat 4 10) (mkRat 15 10) 12 (u 3)
    turb := randomWalk prev.turb 6 1 300 (u 4)
    chl := randomWalk prev.chl 3 (mkRat 1 10) 120 (u 5)
    gene_expr := randomWalk prev.gene_expr 4 0 100 (u 6)
    methyl := randomWalk prev.methyl (mkRat 3 100) 0 1 (u 7)
    metabo := randomWalk prev.metabo 5 0 100 (u 8)
    lipid_ox := randomWalk prev.lipid_ox (mkRat 3 100) 0 1 (u 9) }

/-- Field access by parameter key (the source reads `(latest as any)[k]`). -/
def paramValue (r : Reading) : ParamKey → ℚ
  | .temp => r.temp
  | .sal => r.sal
  | .ph => r.ph
  | .do_ => r.do_
  | .turb => r.turb
  | .chl => r.chl
  | .gene_expr => r.gene_expr
  | .methyl => r.methyl
  | .metabo => r.metabo
  | .lipid_ox => r.lipid_ox

/-- The enumeration order of parameters used by the alerts computation
(`keys`, App.tsx line 227). -/
def alertKeys : List ParamKey :=
  [.temp, .sal, .ph, .do_, .turb, .chl, .gene_expr, .methyl, .metabo, .lipid_ox]

/-- One alert record `{ key, level, value }` (App.tsx line 229). -/
structure AlertRec where
  key : ParamKey
  level : Severity
  value : ℚ
deriving DecidableEq, Repr

/-- The classification pass of the alerts computation (App.tsx lines 227-229):
every parameter in enumeration order, paired with its severity and value. -/
def classifiedList (thr : ParamKey → Threshold) (r : Reading) : List AlertRec :=
  alertKeys.map fun k => ⟨k, classifyAlert (thr k) (paramValue r k), paramValue r k⟩

/-- `Array.prototype.sort` with the source comparator
`(a, b) => (a.level === "crit" ? -1 : 1)` (App.tsx line 231). The comparator
is inconsistent (it ignores its second argument), so ECMA-262 leaves the
resulting order implementation-defined; this models the binary insertion
sort V8 applies to arrays shorter than 22 elements (the alerts array has at
most 10 entries). Because the comparator ignores its second argument, the
binary search for the pivot's slot lands at index 0 whenever the pivot is
`crit` (the comparator always answers -1) and at the end of the sorted
prefix otherwise (it always answers 1). -/
def sortAlerts (l : List AlertRec) : List AlertRec :=
  l.foldl (fun s a => if a.level = Severity.crit then a :: s else s ++ [a]) []

/-- The `alerts` computation (App.tsx lines 225-232): classify every
parameter, drop the `ok` results, sort with the crit-first comparator. -/
def activeAlerts (thr : ParamKey → Threshold) (r : Reading) : List AlertRec :=
  sortAlerts ((classifiedList thr r).filter fun a => decide (a.level ≠ Severity.ok))

/-- One per-site step of the streaming interval callback (App.tsx lines
203-207): take the last reading (seeding one if the series is empty),
step it to `now`, and build `[...arr.slice(-240), next]`. `u` feeds the
`tick` call and `us` the `generateSeeded` fallback. -/
def advanceSeries (arr : List Reading) (now : Int) (u us : Fin 10 → ℚ) : List Reading :=
  let last := arr.getLast?.getD (generateSeeded now us)
  arr.drop (arr.length - 240) ++ [tick last now u]

/-- `n` iterations of `advanceSeries` on one site's series, with the tick
timestamps and random draws supplied per iteration. -/
def advanceIter : ℕ → List Reading → (ℕ → Int) → (ℕ → Fin 10 → ℚ) → (ℕ → Fin 10 → ℚ) → List Reading
  | 0, l, _, _, _ => l
  | n + 1, l, ts, u, us =>
      advanceSeries (advanceIter n l ts u us) (ts n) (u n) (us n)

/-- The interval callback's site loop (App.tsx lines 203-208) over an
arbitrary site list: starting from the previous mapping, update each
site's entry in list order from its own previous series. Randomness is
supplied per site id. -/
def advanceAll (l : List Site) (m : String → List Reading) (now : Int)
    (u us : String → Fin 10 → ℚ) : String → List Reading :=
  l.foldl
    (fun acc site =>
      Function.update acc site.id (advanceSeries (acc site.id) now (u site.id) (us site.id)))
    m

/-- The whole interval callback (App.tsx lines 200-210): the site loop run
over the static `SITES` list. -/
def advance (m : String → List Reading) (now : Int) (u us : String → Fin 10 → ℚ) :
    String → List Reading :=
  advanceAll SITES m now u us

/-- The body of the seeding loop (App.tsx lines 184-187): starting from
reading `r` at time `t`, push `n` ticked readings at `t, t + 300000, ...`;
`u i` supplies the draws of the i-th loop iteration. -/
def seedRowsAux (u : ℕ → Fin 10 → ℚ) : ℕ → Reading → Int → ℕ → List Reading
  | 0, _, _, _ => []
  | n + 1, r, t, i =>
      let r' := tick r t (u i)
      r' :: seedRowsAux u n r' (t + 300000) (i + 1)

/-- One site's seeded history (App.tsx lines 181-187): seed a reading at
`now - 3h`, then run the backfill loop `for (t = now - 3h; t <= now;
t += 300000)`, which with `3h = 10800000 ms` and a `300000 ms` step runs
exactly `10800000 / 300000 + 1 = 37` iterations. `u 0` feeds the
`generateSeeded` call, `u (i + 1)` the i-th loop iteration. -/
def seedSeries (now : Int) (u : ℕ → Fin 10 → ℚ) : List Reading :=
  seedRowsAux u 37 (generateSeeded (now - 10800000) (u 0)) (now - 10800000) 1

/-- Left-pad the decimal digits of `n` with zeros to width `w`. -/
def padZeros (w : ℕ) (n : ℕ) : String :=
  let s := Nat.repr n
  String.mk (List.replicate (w - s.length) '0') ++ s

/-- JavaScript `Number.prototype.toFixed(d)` on a rational: per ECMA-262,
take the sign apart, pick the integer `n` closest to `|q| * 10^d` (ties
toward the larger `n`, i.e. `n = floor(|q| * 10^d + 1/2)`), and insert the
decimal point `d` digits from the right, zero-padding to at least `d + 1`
digits. -/
def jsToFixed (d : ℕ) (q : ℚ) : String :=
  let sign := if q < 0 then "-" else ""
  let n : ℕ := (⌊|q| * (10 : ℚ) ^ d + mkRat 1 2⌋).toNat
  if d = 0 then sign ++ Nat.repr n
  else
    let s := padZeros (d + 1) n
    sign ++ s.dropRight d ++ "." ++ s.takeRight d

/-- Gregorian civil date from a count of days since 1970-01-01 (the
calendar conversion underlying `Date.prototype.toISOString`): returns
`(year, month, day)`. -/
def civilFromDays (days : Int) : Int × ℕ × ℕ :=
  let z := days + 719468
  let era := Int.fdiv z 146097
  let doe := (z - era * 146097).toNat
  let yoe := (doe - doe / 1460 + doe / 36524 - doe / 146096) / 365
  let doy := doe - (365 * yoe + yoe / 4 - yoe / 100)
  let mp := (5 * doy + 2) / 153
  let d := doy - (153 * mp + 2) / 5 + 1
  let m := if mp < 10 then mp + 3 else mp - 9
  let y : Int := era * 400 + yoe
  (if m ≤ 2 then y + 1 else y, m, d)

/-- `new Date(t).toISOString()` (App.tsx line 117) for an integer
millisecond timestamp: `YYYY-MM-DDTHH:mm:ss.sssZ`, with the six-digit
expanded year form when the year falls outside `[0, 9999]`. -/
def isoString (t : Int) : String :=
  let days := Int.fdiv t 86400000
  let msod := (t - days * 86400000).toNat
  let hh := msod / 3600000
  let mi := msod % 3600000 / 60000
  let ss := msod % 60000 / 1000
  let ms := msod % 1000
  let ymd := civilFromDays days
  let y := ymd.1
  let yearStr :=
    if 0 ≤ y ∧ y ≤ 9999 then padZeros 4 y.toNat
    else if y < 0 then "-" ++ padZeros 6 (-y).toNat
    else "+" ++ padZeros 6 y.toNat
  yearStr ++ "-" ++ padZeros 2 ymd.2.1 ++ "-" ++ padZeros 2 ymd.2.2 ++ "T" ++
    padZeros 2 hh ++ ":" ++ padZeros 2 mi ++ ":" ++ padZeros 2 ss ++ "." ++
    padZeros 3 ms ++ "Z"

/-- `toCSV` (App.tsx lines 109-130): the fixed header row, then one row per
reading with the source's per-column `toFixed` precisions, joined by
newlines (no trailing newline). -/
def toCSV (rows : List Reading) : String :=
  let header := String.intercalate ","
    [ "timestamp", "time_local",
      "temp_c", "sal_psu", "ph", "do_mgL", "turb_ntu", "chl_ugL",
      "gene_expr_AU", "methyl_frac", "metabo_AU", "lipid_ox_frac" ]
  let rowLines := rows.map fun r => String.intercalate ","
    [ toString r.ts,
      isoString r.ts,
      jsToFixed 2 r.temp,
      jsToFixed 2 r.sal,
      jsToFixed 2 r.ph,
      jsToFixed 2 r.do_,
      jsToFixed 1 r.turb,
      jsToFixed 1 r.chl,
      jsToFixed 1 r.gene_expr,
      jsToFixed 3 r.methyl,
      jsToFixed 1 r.metabo,
      jsToFixed 3 r.lipid_ox ]
  String.intercalate "\n" (header :: rowLines)

/-- Numeric rank of a severity, with `ok < warn < crit`. -/
def sevRank : Severity → ℕ
  | .ok => 0
  | .warn => 1
  | .crit => 2

/-- C10: `toCSV` on an empty series is exactly the single header line with
the twelve fixed column names, no data rows and no trailing newline. -/
theorem toCSV_empty :
    toCSV [] =
      "timestamp,time_local,temp_c,sal_psu,ph,do_mgL,turb_ntu,chl_ugL,gene_expr_AU,methyl_frac,metabo_AU,lipid_ox_frac" := by
  decide

/-- C2: for every warning level, critical level and value, `classifyAlert`
with direction `over` answers `crit` exactly when the value reaches the
critical level, `warn` exactly when it reaches the warning level but not
the critical one, and `ok` otherwise; symmetrically (with ≤) for `under`.
In particular, with `over, warn 20, crit 24`: 19.9 is ok, 20.0 warn,
24.0 crit; with `under, warn 6, crit 4`: 6.1 is ok, 6.0 warn, 4.0 crit. -/
theorem classifyAlert_spec :
    (∀ w c v : ℚ,
      (classifyAlert ⟨w, c, .over⟩ v = .crit ↔ c ≤ v) ∧
      (classifyAlert ⟨w, c, .over⟩ v = .warn ↔ v < c ∧ w ≤ v) ∧
      (classifyAlert ⟨w, c, .over⟩ v = .ok ↔ v < c ∧ v < w) ∧
      (classifyAlert ⟨w, c, .under⟩ v = .crit ↔ v ≤ c) ∧
      (classifyAlert ⟨w, c, .under⟩ v = .warn ↔ c < v ∧ v ≤ w) ∧
      (classifyAlert ⟨w, c, .under⟩ v = .ok ↔ c < v ∧ w < v)) ∧
    classifyAlert ⟨20, 24, .over⟩ (199/10) = .ok ∧
    classifyAlert ⟨20, 24, .over⟩ 20 = .warn ∧
    classifyAlert ⟨20, 24, .over⟩ 24 = .crit ∧
    classifyAlert ⟨6, 4, .under⟩ (61/10) = .ok ∧
    classifyAlert ⟨6, 4, .under⟩ 6 = .warn ∧
    classifyAlert ⟨6, 4, .under⟩ 4 = .crit := by
  constructor
  · intro w c v
    refine ⟨?_, ?_, ?_, ?_, ?_, ?_⟩ <;>
      simp only [classifyAlert] <;> split_ifs <;> simp_all
  · refine ⟨?_, ?_, ?_, ?_, ?_, ?_⟩ <;> (simp only [classifyAlert]; norm_num)

/-- C9: classification is monotone in the value for every threshold pair,
including pairs violating the documented warning/critical ordering: for
direction `over` the severity rank is monotone, for `under` antitone. -/
theorem classify_monotone (w c v₁ v₂ : ℚ) (h : v₁ ≤ v₂) :
    sevRank (classifyAlert ⟨w, c, .over⟩ v₁) ≤ sevRank (classifyAlert ⟨w, c, .over⟩ v₂) ∧
    sevRank (classifyAlert ⟨w, c, .under⟩ v₂) ≤ sevRank (classifyAlert ⟨w, c, .under⟩ v₁) := by
  constructor <;> simp only [classifyAlert] <;> split_ifs <;> simp [sevRank] <;> linarith

/-- Witness for `classify_monotone` at `w = 0, c = 0, v₁ = 0, v₂ = 1`. -/
theorem classify_monotone_witness :
    (0 : ℚ) ≤ 1 ∧
    (sevRank (classifyAlert ⟨0, 0, .over⟩ 0) ≤ sevRank (classifyAlert ⟨0, 0, .over⟩ 1) ∧
     sevRank (classifyAlert ⟨0, 0, .under⟩ 1) ≤ sevRank (classifyAlert ⟨0, 0, .under⟩ 0)) :=
  ⟨by norm_num, classify_monotone 0 0 0 1 (by norm_num)⟩

/-- Clamping keeps a value inside `[lo, hi]` whenever `lo ≤ hi`. -/
lemma clamp_mem (lo hi x : ℚ) (h : lo ≤ hi) :
    lo ≤ max lo (min hi x) ∧ max lo (min hi x) ≤ hi :=
  ⟨le_max_left _ _, max_le h (min_le_left _ _)⟩

/-- For a draw `u ∈ [0, 1)` the perturbation `(u - 1/2) * s` lies in
`[-s/2, s/2)` when the step `s` is positive. -/
lemma perturb_range (u s : ℚ) (h0 : 0 ≤ u) (h1 : u < 1) (hs : 0 < s) :
    -(s/2) ≤ (u - mkRat 1 2) * s ∧ (u - mkRat 1 2) * s < s/2 := by
  have hhalf : (mkRat 1 2 : ℚ) = 1/2 := by norm_num [Rat.mkRat_eq_div]
  rw [hhalf]
  constructor <;> nlinarith

/-- The per-parameter `[min, max]` bounds of `tick`'s random walks. -/
def inBounds (r : Reading) : Prop :=
  (8 ≤ r.temp ∧ r.temp ≤ 26) ∧ (10 ≤ r.sal ∧ r.sal ≤ 33) ∧
  (mkRat 73 10 ≤ r.ph ∧ r.ph ≤ mkRat 83 10) ∧
  (mkRat 15 10 ≤ r.do_ ∧ r.do_ ≤ 12) ∧
  (1 ≤ r.turb ∧ r.turb ≤ 300) ∧ (mkRat 1 10 ≤ r.chl ∧ r.chl ≤ 120) ∧
  (0 ≤ r.gene_expr ∧ r.gene_expr ≤ 100) ∧ (0 ≤ r.methyl ∧ r.methyl ≤ 1) ∧
  (0 ≤ r.metabo ∧ r.metabo ≤ 100) ∧ (0 ≤ r.lipid_ox ∧ r.lipid_ox ≤ 1)

/-- `x` is the clamp into `[lo, hi]` of `prevv` plus a perturbation drawn
from `[-s/2, s/2)`. -/
def clampEq (x lo hi s prevv : ℚ) : Prop :=
  ∃ d : ℚ, -(s/2) ≤ d ∧ d < s/2 ∧ x = max lo (min hi (prevv + d))

/-- `randomWalk` realizes `clampEq` for draws in `[0, 1)`. -/
lemma randomWalk_clampEq (p s lo hi u : ℚ) (h0 : 0 ≤ u) (h1 : u < 1) (hs : 0 < s) :
    clampEq (randomWalk p s lo hi u) lo hi s p :=
  ⟨(u - mkRat 1 2) * s, (perturb_range u s h0 h1 hs).1,
    (perturb_range u s h0 h1 hs).2, rfl⟩

/-- C3: for every previous reading, target timestamp and draws in `[0, 1)`,
the reading returned by `tick` carries the passed-in timestamp, every
parameter lies within its fixed `[min, max]` range (hence, the previous
reading being arbitrary, the bounds hold across arbitrarily many `tick`
calls), and each stepped value equals
`clamp(previous + uniform(-step/2, step/2), min, max)`. -/
theorem tick_spec (prev : Reading) (t : Int) (u : Fin 10 → ℚ)
    (hu : ∀ i, 0 ≤ u i ∧ u i < 1) :
    (tick prev t u).ts = t ∧ inBounds (tick prev t u) ∧
    clampEq (tick prev t u).temp 8 26 (mkRat 3 10) prev.temp ∧
    clampEq (tick prev t u).sal 10 33 (mkRat 3 10) prev.sal ∧
    clampEq (tick prev t u).ph (mkRat 73 10) (mkRat 83 10) (mkRat 5 100) prev.ph ∧
    clampEq (tick prev t u).do_ (mkRat 15 10) 12 (mkRat 4 10) prev.do_ ∧
    clampEq (tick prev t u).turb 1 300 6 prev.turb ∧
    clampEq (tick prev t u).chl (mkRat 1 10) 120 3 prev.chl ∧
    clampEq (tick prev t u).gene_expr 0 100 4 prev.gene_expr ∧
    clampEq (tick prev t u).methyl 0 1 (mkRat 3 100) prev.methyl ∧
    clampEq (tick prev t u).metabo 0 100 5 prev.metabo ∧
    clampEq (tick prev t u).lipid_ox 0 1 (mkRat 3 100) prev.lipid_ox := by
  refine ⟨rfl,
    ⟨clamp_mem _ _ _ (by norm_num), clamp_mem _ _ _ (by norm_num),
     clamp_mem _ _ _ (by norm_num [Rat.mkRat_eq_div]),
     clamp_mem _ _ _ (by norm_num [Rat.mkRat_eq_div]),
     clamp_mem _ _ _ (by norm_num),
     clamp_mem _ _ _ (by norm_num [Rat.mkRat_eq_div]),
     clamp_mem _ _ _ (by norm_num), clamp_mem _ _ _ (by norm_num),
     clamp_mem _ _ _ (by norm_num), clamp_mem _ _ _ (by norm_num)⟩,
    randomWalk_clampEq _ _ _ _ _ (hu 0).1 (hu 0).2 (by norm_num [Rat.mkRat_eq_div]),
    randomWalk_clampEq _ _ _ _ _ (hu 1).1 (hu 1).2 (by norm_num [Rat.mkRat_eq_div]),
    randomWalk_clampEq _ _ _ _ _ (hu 2).1 (hu 2).2 (by norm_num [Rat.mkRat_eq_div]),
    randomWalk_clampEq _ _ _ _ _ (hu 3).1 (hu 3).2 (by norm_num [Rat.mkRat_eq_div]),
    randomWalk_clampEq _ _ _ _ _ (hu 4).1 (hu 4).2 (by norm_num),
    randomWalk_clampEq _ _ _ _ _ (hu 5).1 (hu 5).2 (by norm_num),
    randomWalk_clampEq _ _ _ _ _ (hu 6).1 (hu 6).2 (by norm_num),
    randomWalk_clampEq _ _ _ _ _ (hu 7).1 (hu 7).2 (by norm_num [Rat.mkRat_eq_div]),
    randomWalk_clampEq _ _ _ _ _ (hu 8).1 (hu 8).2 (by norm_num),
    randomWalk_clampEq _ _ _ _ _ (hu 9).1 (hu 9).2 (by norm_num [Rat.mkRat_eq_div])⟩

/-- A concrete in-range reading used by the witnesses. -/
def r0 : Reading :=
  ⟨0, 18, 29, mkRat 79 10, 8, 20, 8, 30, mkRat 45 100, 30, mkRat 3 10⟩

/-- The constant draw 1/2, the midpoint of `[0, 1)`. -/
def half : Fin 10 → ℚ := fun _ => mkRat 1 2

/-- Witness for `tick_spec` at `prev = r0`, `t = 0`, constant draw 1/2. -/
theorem tick_spec_witness :
    (∀ i : Fin 10, 0 ≤ half i ∧ half i < 1) ∧
    ((tick r0 0 half).ts = 0 ∧ inBounds (tick r0 0 half) ∧
     clampEq (tick r0 0 half).temp 8 26 (mkRat 3 10) r0.temp ∧
     clampEq (tick r0 0 half).sal 10 33 (mkRat 3 10) r0.sal ∧
     clampEq (tick r0 0 half).ph (mkRat 73 10) (mkRat 83 10) (mkRat 5 100) r0.ph ∧
     clampEq (tick r0 0 half).do_ (mkRat 15 10) 12 (mkRat 4 10) r0.do_ ∧
     clampEq (tick r0 0 half).turb 1 300 6 r0.turb ∧
     clampEq (tick r0 0 half).chl (mkRat 1 10) 120 3 r0.chl ∧
     clampEq (tick r0 0 half).gene_expr 0 100 4 r0.gene_expr ∧
     clampEq (tick r0 0 half).methyl 0 1 (mkRat 3 100) r0.methyl ∧
     clampEq (tick r0 0 half).metabo 0 100 5 r0.metabo ∧
     clampEq (tick r0 0 half).lipid_ox 0 1 (mkRat 3 100) r0.lipid_ox) :=
  ⟨by decide, tick_spec r0 0 half (by decide)⟩

/-- The seeding loop pushes exactly as many readings as it iterates. -/
lemma seedRowsAux_length (u : ℕ → Fin 10 → ℚ) (n : ℕ) (r : Reading) (t : Int) (i : ℕ) :
    (seedRowsAux u n r t i).length = n := by
  induction n generalizing r t i with
  | zero => rfl
  | succ n ih => simp [seedRowsAux, ih]

/-- Every timestamp pushed by the seeding loop is at least its start time. -/
lemma seedRowsAux_ts_ge (u : ℕ → Fin 10 → ℚ) (n : ℕ) (r : Reading) (t : Int) (i : ℕ) :
    ∀ x ∈ (seedRowsAux u n r t i).map Reading.ts, t ≤ x := by
  induction n generalizing r t i with
  | zero => simp [seedRowsAux]
  | succ n ih =>
      simp only [seedRowsAux, List.map_cons, List.mem_cons]
      rintro x (rfl | hx)
      · simp [tick]
      · have := ih _ (t + 300000) (i + 1) x hx
        omega

/-- The timestamps pushed by the seeding loop are strictly increasing. -/
lemma seedRowsAux_ts_pairwise (u : ℕ → Fin 10 → ℚ) (n : ℕ) (r : Reading) (t : Int) (i : ℕ) :
    ((seedRowsAux u n r t i).map Reading.ts).Pairwise (· < ·) := by
  induction n generalizing r t i with
  | zero => simp [seedRowsAux]
  | succ n ih =>
      simp only [seedRowsAux, List.map_cons, List.pairwise_cons]
      refine ⟨fun x hx => ?_, ih _ _ _⟩
      have := seedRowsAux_ts_ge u n _ (t + 300000) (i + 1) x hx
      simp only [tick]
      omega

/-- C5: every seeded history is a sequence of exactly 37 readings with
strictly increasing timestamps. -/
theorem seedSeries_spec (now : Int) (u : ℕ → Fin 10 → ℚ) :
    (seedSeries now u).length = 37 ∧
    ((seedSeries now u).map Reading.ts).Pairwise (· < ·) :=
  ⟨seedRowsAux_length u 37 _ _ 1, seedRowsAux_ts_pairwise u 37 _ _ 1⟩

/-- One advance step keeps at most the last 240 previous entries and
appends one, so the new length is `min (old length) 240 + 1`. -/
lemma advanceSeries_length (arr : List Reading) (now : Int) (u us : Fin 10 → ℚ) :
    (advanceSeries arr now u us).length = min arr.length 240 + 1 := by
  simp [advanceSeries]
  omega

/-- Length of an iterated advance, starting below the 241 steady state. -/
lemma advanceIter_length (n : ℕ) (l : List Reading) (ts : ℕ → Int)
    (u us : ℕ → Fin 10 → ℚ) (h : l.length ≤ 241) :
    (advanceIter n l ts u us).length = min (l.length + n) 241 := by
  induction n with
  | zero => simp [advanceIter]; omega
  | succ n ih => simp only [advanceIter, advanceSeries_length, ih]; omega

/-- C1 (amended): a seeded series under `n` advance calls has length
`min (37 + n) 241` — each advance keeps at most the last 240 existing
entries (dropping from the front) and appends one new reading, so the
length is bounded by 241, not 240. -/
theorem seeded_advance_length (now : Int) (u0 : ℕ → Fin 10 → ℚ) (n : ℕ)
    (ts : ℕ → Int) (u us : ℕ → Fin 10 → ℚ) :
    (advanceIter n (seedSeries now u0) ts u us).length = min (37 + n) 241 ∧
    (advanceIter n (seedSeries now u0) ts u us).length ≤ 241 := by
  have hlen : (seedSeries now u0).length = 37 := seedRowsAux_length u0 37 _ _ 1
  have h := advanceIter_length n (seedSeries now u0) ts u us (by omega)
  rw [hlen] at h
  exact ⟨h, by omega⟩

/-- The constant draw stream 1/2. -/
def halfStream : ℕ → Fin 10 → ℚ := fun _ => half

/-- C1 (counterexample): after seeding at time 0 and 204 advance calls the
series holds 241 entries, exceeding the claimed maximum window of 240. -/
theorem advance_length_exceeds_240 :
    240 <
      (advanceIter 204 (seedSeries 0 halfStream) (fun _ => 0) halfStream halfStream).length := by
  have hlen : (seedSeries 0 halfStream).length = 37 := seedRowsAux_length halfStream 37 _ _ 1
  have h := advanceIter_length 204 (seedSeries 0 halfStream) (fun _ => 0) halfStream halfStream
    (by omega)
  rw [hlen] at h
  omega

/-- The interval callback's fold reads and writes only the entry of the
site being processed, so the value at any key depends only on the starting
mapping's value at that same key. -/
lemma advance_foldl_own (l : List Site) (now : Int) (u us : String → Fin 10 → ℚ)
    (m₁ m₂ : String → List Reading) (B : String) (h : m₁ B = m₂ B) :
    advanceAll l m₁ now u us B = advanceAll l m₂ now u us B := by
  induction l generalizing m₁ m₂ with
  | nil => simpa [advanceAll] using h
  | cons s l ih =>
      simp only [advanceAll, List.foldl_cons]
      refine ih _ _ ?_
      by_cases hB : B = s.id
      · subst hB
        rw [Function.update_same, Function.update_same, h]
      · rw [Function.update_noteq hB, Function.update_noteq hB]
        exact h

/-- C7: one `advance` call computes every site's new series from that
site's own previous series only (given the shared clock and per-site
randomness): if two mappings agree at key `B`, the advanced mappings agree
at `B` in contents and length, whatever they hold at other keys. -/
theorem advance_independent (m₁ m₂ : String → List Reading) (now : Int)
    (u us : String → Fin 10 → ℚ) (B : String) (h : m₁ B = m₂ B) :
    advance m₁ now u us B = advance m₂ now u us B ∧
    (advance m₁ now u us B).length = (advance m₂ now u us B).length := by
  have heq : advance m₁ now u us B = advance m₂ now u us B :=
    advance_foldl_own SITES now u us m₁ m₂ B h
  exact ⟨heq, by rw [heq]⟩

/-- The empty series mapping. -/
def emptyMap : String → List Reading := fun _ => []

/-- A mapping that differs from `emptyMap` only at site `PS-ALKI`. -/
def oneSiteMap : String → List Reading := Function.update emptyMap "PS-ALKI" [r0]

/-- The constant draw 1/2 for every site. -/
def halfBySite : String → Fin 10 → ℚ := fun _ => half

/-- Witness for `advance_independent`: the two mappings differ at site
`PS-ALKI` but agree at `PS-EDMONDS`, so advancing leaves `PS-EDMONDS`
identical. -/
theorem advance_independent_witness :
    emptyMap "PS-EDMONDS" = oneSiteMap "PS-EDMONDS" ∧
    (advance emptyMap 0 halfBySite halfBySite "PS-EDMONDS" =
       advance oneSiteMap 0 halfBySite halfBySite "PS-EDMONDS" ∧
     (advance emptyMap 0 halfBySite halfBySite "PS-EDMONDS").length =
       (advance oneSiteMap 0 halfBySite halfBySite "PS-EDMONDS").length) :=
  ⟨by decide, advance_independent emptyMap oneSiteMap 0 halfBySite halfBySite
    "PS-EDMONDS" (by decide)⟩

/-- With direction `over`, a value below both levels classifies `ok`. -/
lemma classify_ok_over (w c v : ℚ) (h1 : v < c) (h2 : v < w) :
    classifyAlert ⟨w, c, .over⟩ v = .ok := by
  simp only [classifyAlert]
  rw [if_neg (not_le.2 h1), if_neg (not_le.2 h2)]

/-- With direction `under`, a value above both levels classifies `ok`. -/
lemma classify_ok_under (w c v : ℚ) (h1 : c < v) (h2 : w < v) :
    classifyAlert ⟨w, c, .under⟩ v = .ok := by
  simp only [classifyAlert]
  rw [if_neg (not_le.2 h1), if_neg (not_le.2 h2)]

/-- C8 (amended): in the exact rational reading of the seed expressions,
every freshly seeded reading classifies `ok` on every parameter under the
default thresholds for all draws in `[0, 1)`, so its active-alert list is
empty. Under the source's IEEE-754 double arithmetic this fails exactly at
the boundary: the maximal `Math.random` draw rounds the temperature sum to
exactly the warning threshold 20.0 (see the counterexample below). -/
theorem seeded_no_alerts (s : Int) (u : Fin 10 → ℚ)
    (hu : ∀ i, 0 ≤ u i ∧ u i < 1) :
    activeAlerts THRESHOLDS (generateSeeded s u) = [] := by
  have hok : ∀ k, classifyAlert (THRESHOLDS k) (paramValue (generateSeeded s u) k) = .ok := by
    intro k
    cases k
    case temp =>
      exact classify_ok_over _ _ _
        (by simp only [paramValue, generateSeeded]; linarith [(hu 0).1, (hu 0).2])
        (by simp only [paramValue, generateSeeded]; linarith [(hu 0).1, (hu 0).2])
    case sal =>
      exact classify_ok_under _ _ _
        (by simp only [paramValue, generateSeeded]; linarith [(hu 1).1, (hu 1).2])
        (by simp only [paramValue, generateSeeded]; linarith [(hu 1).1, (hu 1).2])
    case ph =>
      exact classify_ok_under _ _ _
        (by simp only [paramValue, generateSeeded, Rat.mkRat_eq_div]; push_cast;
            linarith [(hu 2).1, (hu 2).2])
        (by simp only [paramValue, generateSeeded, Rat.mkRat_eq_div]; push_cast;
            linarith [(hu 2).1, (hu 2).2])
    case do_ =>
      exact classify_ok_under _ _ _
        (by simp only [paramValue, generateSeeded]; linarith [(hu 3).1, (hu 3).2])
        (by simp only [paramValue, generateSeeded]; linarith [(hu 3).1, (hu 3).2])
    case turb =>
      exact classify_ok_over _ _ _
        (by simp only [paramValue, generateSeeded]; linarith [(hu 4).1, (hu 4).2])
        (by simp only [paramValue, generateSeeded]; linarith [(hu 4).1, (hu 4).2])
    case chl =>
      exact classify_ok_over _ _ _
        (by simp only [paramValue, generateSeeded]; linarith [(hu 5).1, (hu 5).2])
        (by simp only [paramValue, generateSeeded]; linarith [(hu 5).1, (hu 5).2])
    case gene_expr =>
      exact classify_ok_over _ _ _
        (by simp only [paramValue, generateSeeded]; linarith [(hu 6).1, (hu 6).2])
        (by simp only [paramValue, generateSeeded]; linarith [(hu 6).1, (hu 6).2])
    case methyl =>
      exact classify_ok_over _ _ _
        (by simp only [paramValue, generateSeeded, Rat.mkRat_eq_div]; push_cast;
            linarith [(hu 7).1, (hu 7).2])
        (by simp only [paramValue, generateSeeded, Rat.mkRat_eq_div]; push_cast;
            linarith [(hu 7).1, (hu 7).2])
    case metabo =>
      exact classify_ok_over _ _ _
        (by simp only [paramValue, generateSeeded]; linarith [(hu 8).1, (hu 8).2])
        (by simp only [paramValue, generateSeeded]; linarith [(hu 8).1, (hu 8).2])
    case lipid_ox =>
      exact classify_ok_over _ _ _
        (by simp only [paramValue, generateSeeded, Rat.mkRat_eq_div]; push_cast;
            linarith [(hu 9).1, (hu 9).2])
        (by simp only [paramValue, generateSeeded, Rat.mkRat_eq_div]; push_cast;
            linarith [(hu 9).1, (hu 9).2])
  have hfilter :
      (classifiedList THRESHOLDS (generateSeeded s u)).filter
        (fun a => decide (a.level ≠ Severity.ok)) = [] := by
    refine List.filter_eq_nil_iff.mpr fun a ha => ?_
    simp only [classifiedList, List.mem_map] at ha
    obtain ⟨k, -, rfl⟩ := ha
    simp [hok k]
  simp only [activeAlerts, hfilter]
  rfl

/-- Witness for `seeded_no_alerts` at start time 0, constant draw 1/2. -/
theorem seeded_no_alerts_witness :
    (∀ i : Fin 10, 0 ≤ half i ∧ half i < 1) ∧
    activeAlerts THRESHOLDS (generateSeeded 0 half) = [] :=
  ⟨by decide, seeded_no_alerts 0 half (by decide)⟩

/-- Round a rational to an integer, nearest value first and ties to the
even neighbour (the IEEE-754 default rounding applied to a scaled
significand). -/
def roundHalfEven (m : ℚ) : ℤ :=
  if m - ⌊m⌋ < mkRat 1 2 then ⌊m⌋
  else if mkRat 1 2 < m - ⌊m⌋ then ⌊m⌋ + 1
  else if 2 ∣ ⌊m⌋ then ⌊m⌋
  else ⌊m⌋ + 1

/-- IEEE-754 binary64 rounding of an exact rational: round to nearest,
ties to even, with a 53-bit significand. The exponent is unbounded (no
overflow or subnormal modelling), which agrees with binary64 on the
normal range and in particular on every magnitude arising from the seed
expressions. -/
def fl (x : ℚ) : ℚ :=
  if x = 0 then 0
  else
    (if x < 0 then (-1 : ℚ) else 1) *
      ((roundHalfEven (|x| * (2 : ℚ) ^ ((52 : ℤ) - Int.log 2 |x|)) : ℚ) *
        (2 : ℚ) ^ (Int.log 2 |x| - (52 : ℤ)))

/-- `Int.log 2` is characterized by the enclosing binade. -/
lemma log2_eq {x : ℚ} {e : ℤ} (hpos : 0 < x) (h1 : (2 : ℚ) ^ e ≤ x)
    (h2 : x < (2 : ℚ) ^ (e + 1)) : Int.log 2 x = e := by
  have ha : e ≤ Int.log 2 x := by
    rw [← Int.zpow_le_iff_le_log one_lt_two hpos]
    push_cast
    exact h1
  have hb : Int.log 2 x < e + 1 := by
    rw [← Int.lt_zpow_iff_log_lt one_lt_two hpos]
    push_cast
    exact h2
  omega

/-- Evaluation of `fl` on a positive rational with known binade. -/
lemma fl_eval (x : ℚ) (e : ℤ) (hpos : 0 < x) (h1 : (2 : ℚ) ^ e ≤ x)
    (h2 : x < (2 : ℚ) ^ (e + 1)) :
    fl x = (roundHalfEven (x * (2 : ℚ) ^ ((52 : ℤ) - e)) : ℚ) * (2 : ℚ) ^ (e - (52 : ℤ)) := by
  have habs : |x| = x := abs_of_pos hpos
  rw [fl, if_neg (ne_of_gt hpos), if_neg (not_lt.2 hpos.le), habs, log2_eq hpos h1 h2, one_mul]

/-- An integer significand is returned unchanged. -/
lemma roundHalfEven_intCast (n : ℤ) : roundHalfEven (n : ℚ) = n := by
  simp only [roundHalfEven, Int.floor_intCast, sub_self]
  rw [if_pos]
  norm_num [Rat.mkRat_eq_div]

/-- A significand with fractional part above one half rounds up. -/
lemma roundHalfEven_up (m : ℚ) (n : ℤ) (hfl : ⌊m⌋ = n) (hfrac : mkRat 1 2 < m - n) :
    roundHalfEven m = n + 1 := by
  simp only [roundHalfEven, hfl]
  rw [if_neg (not_lt.2 hfrac.le), if_pos hfrac]

/-- The largest value `Math.random()` returns: `1 - 2^(-52)` (V8 fills 52
random mantissa bits), an exactly representable double in `[0, 1)`. -/
def uMax : ℚ := mkRat 4503599627370495 4503599627370496

/-- `generateSeeded` as the source actually evaluates it, in IEEE-754
binary64: every decimal literal and every intermediate arithmetic result
is rounded to the nearest double by `fl` (the draws are already doubles,
and the integer literals are exact). -/
def generateSeededFP (start : Int) (u : Fin 10 → ℚ) : Reading :=
  { ts := start
    temp := fl (16 + fl (u 0 * 4))
    sal := fl (28 + fl (u 1 * 3))
    ph := fl (fl (mkRat 78 10) + fl (u 2 * fl (mkRat 2 10)))
    do_ := fl (7 + fl (u 3 * 2))
    turb := fl (10 + fl (u 4 * 25))
    chl := fl (3 + fl (u 5 * 10))
    gene_expr := fl (20 + fl (u 6 * 20))
    methyl := fl (fl (mkRat 4 10) + fl (u 7 * fl (mkRat 1 10)))
    metabo := fl (20 + fl (u 8 * 20))
    lipid_ox := fl (fl (mkRat 25 100) + fl (u 9 * fl (mkRat 1 10))) }

/-- `uMax * 4 = 4 - 2^(-50)` is exactly representable, so it rounds to
itself. -/
lemma fl_uMax_mul4 : fl (uMax * 4) = mkRat 4503599627370495 1125899906842624 := by
  rw [fl_eval (uMax * 4) 1 (by norm_num [uMax, Rat.mkRat_eq_div])
    (by norm_num [uMax, Rat.mkRat_eq_div]) (by norm_num [uMax, Rat.mkRat_eq_div])]
  have hm : uMax * 4 * (2 : ℚ) ^ ((52 : ℤ) - 1) = ((9007199254740990 : ℤ) : ℚ) := by
    norm_num [uMax, Rat.mkRat_eq_div]
  rw [hm, roundHalfEven_intCast]
  norm_num [Rat.mkRat_eq_div]

/-- The double sum `16 + uMax * 4 = 20 - 2^(-50)` lies within half an ulp
of 20 (ulp is `2^(-48)` in the binade `[16, 32)`), so it rounds to exactly
20.0 — the temperature warning threshold. -/
lemma fl_temp_seed : fl (16 + fl (uMax * 4)) = 20 := by
  rw [fl_uMax_mul4]
  rw [fl_eval _ 4 (by norm_num [Rat.mkRat_eq_div]) (by norm_num [Rat.mkRat_eq_div])
    (by norm_num [Rat.mkRat_eq_div])]
  have hfl : ⌊(16 + mkRat 4503599627370495 1125899906842624) * (2 : ℚ) ^ ((52 : ℤ) - 4)⌋ =
      (5629499534213119 : ℤ) := by
    norm_num [Rat.mkRat_eq_div, Int.floor_eq_iff]
  have hfr : mkRat 1 2 <
      (16 + mkRat 4503599627370495 1125899906842624) * (2 : ℚ) ^ ((52 : ℤ) - 4) -
        ((5629499534213119 : ℤ) : ℚ) := by
    norm_num [Rat.mkRat_eq_div]
  rw [roundHalfEven_up _ _ hfl hfr]
  norm_num

/-- The crit-first insertion fold preserves length. -/
lemma sortAlerts_length (l : List AlertRec) : (sortAlerts l).length = l.length := by
  suffices h : ∀ (t s : List AlertRec),
      (t.foldl (fun s a => if a.level = Severity.crit then a :: s else s ++ [a]) s).length =
        s.length + t.length by
    simpa [sortAlerts] using h l []
  intro t
  induction t with
  | nil => intro s; simp
  | cons a t ih =>
      intro s
      simp only [List.foldl_cons]
      by_cases hc : a.level = Severity.crit
      · rw [if_pos hc, ih]
        simp
        omega
      · rw [if_neg hc, ih]
        simp
        omega

/-- C8 (counterexample): under the source's IEEE-754 double arithmetic the
seed operation can alert. At the maximal `Math.random` draw `1 - 2^(-52)`,
the temperature `16 + u * 4` rounds to exactly 20.0, which classifies
`warn` (`value >= warn`), so the freshly seeded reading's active-alert
list is not empty — refuting the claim that it is empty for every draw in
`[0, 1)`. -/
theorem seeded_alert_fp_counterexample :
    activeAlerts THRESHOLDS (generateSeededFP 0 (fun _ => uMax)) ≠ [] := by
  intro h
  have hwarn : classifyAlert (THRESHOLDS ParamKey.temp)
      (paramValue (generateSeededFP 0 (fun _ => uMax)) ParamKey.temp) = Severity.warn := by
    have hv : paramValue (generateSeededFP 0 (fun _ => uMax)) ParamKey.temp = 20 := by
      simp only [paramValue, generateSeededFP]
      exact fl_temp_seed
    rw [hv]
    decide
  have hmem : (⟨ParamKey.temp, Severity.warn,
      paramValue (generateSeededFP 0 (fun _ => uMax)) ParamKey.temp⟩ : AlertRec) ∈
      (classifiedList THRESHOLDS (generateSeededFP 0 (fun _ => uMax))).filter
        (fun a => decide (a.level ≠ Severity.ok)) := by
    rw [List.mem_filter]
    refine ⟨?_, by simp⟩
    simp only [classifiedList, List.mem_map]
    exact ⟨ParamKey.temp, by simp [alertKeys], by rw [hwarn]⟩
  have hlen : ((classifiedList THRESHOLDS (generateSeededFP 0 (fun _ => uMax))).filter
      (fun a => decide (a.level ≠ Severity.ok))).length = 0 := by
    have hl := congrArg List.length h
    simpa only [activeAlerts, sortAlerts_length, List.length_nil] using hl
  rw [List.length_eq_zero] at hlen
  rw [hlen] at hmem
  exact List.not_mem_nil _ hmem

/-- The crit-first insertion fold sends the `crit` entries, reversed, to
the front of whatever was sorted so far and the rest, in order, to the
back. -/
lemma sortAlerts_foldl_partition (l s : List AlertRec) :
    l.foldl (fun s a => if a.level = Severity.crit then a :: s else s ++ [a]) s =
      ((l.filter fun a => decide (a.level = Severity.crit)).reverse ++ s) ++
        (l.filter fun a => decide (a.level ≠ Severity.crit)) := by
  induction l generalizing s with
  | nil => simp
  | cons a l ih =>
      simp only [List.foldl_cons, List.filter_cons]
      by_cases h : a.level = Severity.crit
      · simp [h, ih, List.append_assoc]
      · simp [h, ih, List.append_assoc]

/-- C4 (amended): `activeAlerts` classifies every parameter, discards the
`ok` results, and returns all `crit` entries (in reverse enumeration
order) followed by all `warn` entries (in enumeration order) — the
comparator passed to the sort is inconsistent, and the engine's binary
insertion sort reverses the `crit` group instead of keeping it stable. -/
theorem activeAlerts_partition (thr : ParamKey → Threshold) (r : Reading) :
    activeAlerts thr r =
      ((classifiedList thr r).filter fun a => decide (a.level = Severity.crit)).reverse ++
      ((classifiedList thr r).filter fun a => decide (a.level = Severity.warn)) := by
  unfold activeAlerts sortAlerts
  rw [sortAlerts_foldl_partition, List.append_nil, List.filter_filter, List.filter_filter]
  congr 1
  · congr 1
    refine List.filter_congr fun a _ => ?_
    rcases a with ⟨k, lv, v⟩
    cases lv <;> rfl
  · refine List.filter_congr fun a _ => ?_
    rcases a with ⟨k, lv, v⟩
    cases lv <;> rfl

/-- A reading that is critical on two parameters (temperature 25 ≥ 24 and
turbidity 200 ≥ 150) and normal on the rest. -/
def rTwoCrit : Reading :=
  ⟨0, 25, 28, mkRat 79 10, 7, 200, 5, 30, mkRat 45 100, 30, mkRat 3 10⟩

/-- C4 (counterexample): with two critical parameters, `activeAlerts`
returns them in reverse enumeration order (`turb` before `temp`), not in
the enumeration order (`temp` before `turb`) a stable two-bucket partition
would produce. -/
theorem activeAlerts_order_counterexample :
    activeAlerts THRESHOLDS rTwoCrit =
      [⟨.turb, .crit, 200⟩, ⟨.temp, .crit, 25⟩] ∧
    activeAlerts THRESHOLDS rTwoCrit ≠
      [⟨.temp, .crit, 25⟩, ⟨.turb, .crit, 200⟩] := by
  constructor <;> decide

/-- The header line the spec fixes: the twelve column names joined by
commas. -/
def csvHeaderSpec : String :=
  "timestamp,time_local,temp_c,sal_psu,ph,do_mgL,turb_ntu,chl_ugL,gene_expr_AU,methyl_frac,metabo_AU,lipid_ox_frac"

/-- One data row as the spec words it: raw timestamp, ISO-8601 local time,
then the numeric fields at their fixed per-column precisions (2 decimals
for temperature/salinity/pH and dissolved oxygen, 1 for turbidity,
chlorophyll, gene expression and metabolites, 3 for the methylation and
lipid-oxidation fractions), joined by commas. -/
def csvRowSpec (r : Reading) : String :=
  String.intercalate ","
    [ toString r.ts, isoString r.ts,
      jsToFixed 2 r.temp, jsToFixed 2 r.sal, jsToFixed 2 r.ph, jsToFixed 2 r.do_,
      jsToFixed 1 r.turb, jsToFixed 1 r.chl, jsToFixed 1 r.gene_expr,
      jsToFixed 3 r.methyl, jsToFixed 1 r.metabo, jsToFixed 3 r.lipid_ox ]

/-- Evaluation of `jsToFixed` on a nonnegative rational whose rounded
scaled value is known. -/
lemma jsToFixed_eval (d : ℕ) (q : ℚ) (n : ℕ) (h0 : 0 ≤ q)
    (hn : ⌊q * (10 : ℚ) ^ d + mkRat 1 2⌋ = (n : ℤ)) :
    jsToFixed d q =
      if d = 0 then Nat.repr n
      else (padZeros (d + 1) n).dropRight d ++ "." ++ (padZeros (d + 1) n).takeRight d := by
  simp only [jsToFixed, abs_of_nonneg h0, hn, if_neg (not_lt.2 h0), Int.toNat_natCast,
    String.empty_append]

/-- A reading with known field values for the formatting check. -/
def sampleReading : Reading :=
  ⟨0, mkRat 1234 100, mkRat 305 10, mkRat 78456 10000, 7, mkRat 1234 100,
    mkRat 525 100, 0, mkRat 4567 10000, 42, mkRat 125 1000⟩

/-- C6: `toCSV` is exactly the fixed header line followed by one
spec-formatted row per reading, in series order; the documented precisions
hold on the pinpointed values (`ph = 7.8456` prints `7.85`,
`methyl = 0.4567` prints `0.457`) and on a full sample row. -/
theorem toCSV_spec :
    (∀ rows : List Reading,
      toCSV rows = String.intercalate "\n" (csvHeaderSpec :: rows.map csvRowSpec)) ∧
    jsToFixed 2 (mkRat 78456 10000) = "7.85" ∧
    jsToFixed 3 (mkRat 4567 10000) = "0.457" ∧
    csvRowSpec sampleReading =
      "0,1970-01-01T00:00:00.000Z,12.34,30.50,7.85,7.00,12.3,5.3,0.0,0.457,42.0,0.125" := by
  have fph : jsToFixed 2 (mkRat 78456 10000) = "7.85" := by
    rw [jsToFixed_eval 2 _ 785 (by norm_num [Rat.mkRat_eq_div])
      (by norm_num [Rat.mkRat_eq_div])]
    decide
  have fme : jsToFixed 3 (mkRat 4567 10000) = "0.457" := by
    rw [jsToFixed_eval 3 _ 457 (by norm_num [Rat.mkRat_eq_div])
      (by norm_num [Rat.mkRat_eq_div])]
    decide
  have ftemp : jsToFixed 2 (mkRat 1234 100) = "12.34" := by
    rw [jsToFixed_eval 2 _ 1234 (by norm_num [Rat.mkRat_eq_div])
      (by norm_num [Rat.mkRat_eq_div])]
    decide
  have fsal : jsToFixed 2 (mkRat 305 10) = "30.50" := by
    rw [jsToFixed_eval 2 _ 3050 (by norm_num [Rat.mkRat_eq_div])
      (by norm_num [Rat.mkRat_eq_div])]
    decide
  have fdo : jsToFixed 2 (7 : ℚ) = "7.00" := by
    rw [jsToFixed_eval 2 _ 700 (by norm_num) (by norm_num [Rat.mkRat_eq_div])]
    decide
  have fturb : jsToFixed 1 (mkRat 1234 100) = "12.3" := by
    rw [jsToFixed_eval 1 _ 123 (by norm_num [Rat.mkRat_eq_div])
      (by norm_num [Rat.mkRat_eq_div])]
    decide
  have fchl : jsToFixed 1 (mkRat 525 100) = "5.3" := by
    rw [jsToFixed_eval 1 _ 53 (by norm_num [Rat.mkRat_eq_div])
      (by norm_num [Rat.mkRat_eq_div])]
    decide
  have fgene : jsToFixed 1 (0 : ℚ) = "0.0" := by
    rw [jsToFixed_eval 1 _ 0 (by norm_num) (by norm_num [Rat.mkRat_eq_div])]
    decide
  have fmet : jsToFixed 1 (42 : ℚ) = "42.0" := by
    rw [jsToFixed_eval 1 _ 420 (by norm_num) (by norm_num [Rat.mkRat_eq_div])]
    decide
  have flip : jsToFixed 3 (mkRat 125 1000) = "0.125" := by
    rw [jsToFixed_eval 3 _ 125 (by norm_num [Rat.mkRat_eq_div])
      (by norm_num [Rat.mkRat_eq_div])]
    decide
  refine ⟨fun rows => rfl, fph, fme, ?_⟩
  simp only [csvRowSpec, sampleReading, ftemp, fsal, fph, fdo, fturb, fchl, fgene, fme,
    fmet, flip]
  decide

end Dashboard
